import Mathlib

/-!
Verification of the slidev drag-element engine.

The geometry and gesture resolvers of the drag editor
(`packages/client/internals/DragControl.vue`,
`packages/client/internals/GroupDragControl.vue`,
`packages/client/composables/useDragElements.ts`,
`packages/client/composables/useMultiSelect.ts`) are embedded shallowly.

Numbers are modelled over an arbitrary `LinearOrderedField α` (instantiated
at `ℚ` for concrete evaluations and covering `ℝ`): the JavaScript source
computes with IEEE doubles, which we idealize as exact field arithmetic.
The source precomputes `rotateCos`/`rotateSin` once per rotation angle and
all resolver formulas consume only that pair, so the resolvers here take the
cosine/sine pair `(c, s)` of the rotation as parameters; "for every rotation
angle" becomes "for every `(c, s)` with `c ^ 2 + s ^ 2 = 1`".
-/

namespace SlidevDrag

/-- Per-element geometry record, following `DragElementState`
(`useDragElements.ts`): full center `(x0, y0)`, full size, rotation in
degrees, and the four crop percentages. -/
structure Geom (α : Type) where
  x0 : α
  y0 : α
  width : α
  height : α
  rotate : α
  cropTop : α
  cropRight : α
  cropBottom : α
  cropLeft : α
  deriving DecidableEq

variable {α : Type} [LinearOrderedField α]

/-- World x of the rotated top-left corner; from `onPointerdown` in
`DragControl.vue`: `ltx = x0 - cross1x / 2` with
`cross1x = width * cos - height * sin`. -/
def cornerLTx (g : Geom α) (c s : α) : α :=
  g.x0 - (g.width * c - g.height * s) / 2

/-- World y of the rotated top-left corner (`lty = y0 - cross1y / 2`). -/
def cornerLTy (g : Geom α) (c s : α) : α :=
  g.y0 - (g.width * s + g.height * c) / 2

/-- World x of the rotated top-right corner (`rtx = x0 + cross2x / 2`). -/
def cornerRTx (g : Geom α) (c s : α) : α :=
  g.x0 + (g.width * c + g.height * s) / 2

/-- World y of the rotated top-right corner (`rty = y0 - cross2y / 2` with
`cross2y = -width * sin + height * cos`). -/
def cornerRTy (g : Geom α) (c s : α) : α :=
  g.y0 - (-(g.width * s) + g.height * c) / 2

/-- World x of the rotated bottom-left corner (`lbx = x0 - cross2x / 2`). -/
def cornerLBx (g : Geom α) (c s : α) : α :=
  g.x0 - (g.width * c + g.height * s) / 2

/-- World y of the rotated bottom-left corner (`lby = y0 + cross2y / 2`). -/
def cornerLBy (g : Geom α) (c s : α) : α :=
  g.y0 + (-(g.width * s) + g.height * c) / 2

/-- World x of the rotated bottom-right corner (`rbx = x0 + cross1x / 2`). -/
def cornerRBx (g : Geom α) (c s : α) : α :=
  g.x0 + (g.width * c - g.height * s) / 2

/-- World y of the rotated bottom-right corner (`rby = y0 + cross1y / 2`). -/
def cornerRBy (g : Geom α) (c s : α) : α :=
  g.y0 + (g.width * s + g.height * c) / 2

/-- Gesture-start snapshot captured by `onPointerdown` in `DragControl.vue`:
the pre-gesture geometry plus the four frozen world-space corners. -/
structure DragSnap (α : Type) where
  x0 : α
  y0 : α
  width : α
  height : α
  rotate : α
  ltx : α
  lty : α
  rtx : α
  rty : α
  lbx : α
  lby : α
  rbx : α
  rby : α
  deriving DecidableEq

/-- Build the `onPointerdown` snapshot from the current geometry, with
`(c, s)` the cosine/sine of the current rotation. -/
def mkDragSnap (g : Geom α) (c s : α) : DragSnap α :=
  { x0 := g.x0
    y0 := g.y0
    width := g.width
    height := g.height
    rotate := g.rotate
    ltx := cornerLTx g c s
    lty := cornerLTy g c s
    rtx := cornerRTx g c s
    rty := cornerRTy g c s
    lbx := cornerLBx g c s
    lby := cornerLBy g c s
    rbx := cornerRBx g c s
    rby := cornerRBy g c s }

/-- The `getSize` closure of `getCornerProps` (`DragControl.vue`): with the
aspect modifier, clamp to the original ratio `wOverH` (choosing the larger
of width-driven and height-driven candidates) with the aspect-adjusted
floor `wMin = max minSize (minSize * wOverH)`; otherwise floor each axis at
`minSize`. `minSize` is 40 for non-arrow elements (the arrow case uses an
IEEE `-Infinity` floor, i.e. no floor, which has no exact-field analogue;
the claims below concern the non-arrow path). -/
def getSize (shift : Bool) (minSize wOverH w1 h1 : α) : α × α :=
  if shift then
    let wMin := max minSize (minSize * wOverH)
    let w := max (max w1 (h1 * wOverH)) wMin
    (w, w / wOverH)
  else
    (max w1 minSize, max h1 minSize)

/-- Corner-resize resolver: the `onPointermove` handler of
`getCornerProps(isLeft, isTop)` in `DragControl.vue`, acting on the live
geometry `g` with gesture snapshot `d` and pointer position `(px, py)`
(already converted to slide space). `(c, s)` are `rotateCos`/`rotateSin`. -/
def cornerResize (g : Geom α) (d : DragSnap α) (c s : α)
    (isLeft isTop shift : Bool) (minSize px py : α) : Geom α :=
  let wOverH := d.width / d.height
  match isLeft, isTop with
  | true, true =>
      let w1 := (d.rbx - px) * c + (d.rby - py) * s
      let h1 := -((d.rbx - px) * s) + (d.rby - py) * c
      let wh := getSize shift minSize wOverH w1 h1
      let x := d.rbx - wh.1 * c + wh.2 * s
      let y := d.rby - wh.1 * s - wh.2 * c
      { g with
        x0 := (x + d.rbx) / 2
        y0 := (y + d.rby) / 2
        width := (d.rbx - x) * c + (d.rby - y) * s
        height := -((d.rbx - x) * s) + (d.rby - y) * c }
  | true, false =>
      let w1 := (d.rtx - px) * c - (py - d.rty) * s
      let h1 := (d.rtx - px) * s + (py - d.rty) * c
      let wh := getSize shift minSize wOverH w1 h1
      let x := d.rtx - wh.1 * c - wh.2 * s
      let y := d.rty - wh.1 * s + wh.2 * c
      { g with
        x0 := (x + d.rtx) / 2
        y0 := (y + d.rty) / 2
        width := (d.rtx - x) * c - (y - d.rty) * s
        height := (d.rtx - x) * s + (y - d.rty) * c }
  | false, true =>
      let w1 := (px - d.lbx) * c - (d.lby - py) * s
      let h1 := (px - d.lbx) * s + (d.lby - py) * c
      let wh := getSize shift minSize wOverH w1 h1
      let x := d.lbx + wh.1 * c + wh.2 * s
      let y := d.lby + wh.1 * s - wh.2 * c
      { g with
        x0 := (x + d.lbx) / 2
        y0 := (y + d.lby) / 2
        width := (x - d.lbx) * c - (d.lby - y) * s
        height := (x - d.lbx) * s + (d.lby - y) * c }
  | false, false =>
      let w1 := (px - d.ltx) * c + (py - d.lty) * s
      let h1 := -((px - d.ltx) * s) + (py - d.lty) * c
      let wh := getSize shift minSize wOverH w1 h1
      let x := d.ltx + wh.1 * c - wh.2 * s
      let y := d.lty + wh.1 * s + wh.2 * c
      { g with
        x0 := (x + d.ltx) / 2
        y0 := (y + d.lty) / 2
        width := (x - d.ltx) * c + (y - d.lty) * s
        height := -((x - d.ltx) * s) + (y - d.lty) * c }

/-- World x of the corner diagonally opposite the dragged corner
`(isLeft, isTop)`: the anchor used by the corner resolver. -/
def oppCornerX (g : Geom α) (c s : α) (isLeft isTop : Bool) : α :=
  match isLeft, isTop with
  | true, true => cornerRBx g c s
  | true, false => cornerRTx g c s
  | false, true => cornerLBx g c s
  | false, false => cornerLTx g c s

/-- World y of the corner diagonally opposite the dragged corner. -/
def oppCornerY (g : Geom α) (c s : α) (isLeft isTop : Bool) : α :=
  match isLeft, isTop with
  | true, true => cornerRBy g c s
  | true, false => cornerRTy g c s
  | false, true => cornerLBy g c s
  | false, false => cornerLTy g c s

/-- Branch analysis of `cornerResize` for a top-left drag (anchor: frozen
bottom-right corner): the committed width/height are the `getSize` output,
and the bottom-right corner of the committed geometry stays at the
snapshot's frozen `(rbx, rby)`. -/
lemma cornerResize_tt_spec (g : Geom α) (d : DragSnap α) (c s : α)
    (hcs : c ^ 2 + s ^ 2 = 1) (shift : Bool) (minSize px py : α) :
    (cornerResize g d c s true true shift minSize px py).width =
      (getSize shift minSize (d.width / d.height) ((d.rbx - px) * c + (d.rby - py) * s)
        (-((d.rbx - px) * s) + (d.rby - py) * c)).1 ∧
    (cornerResize g d c s true true shift minSize px py).height =
      (getSize shift minSize (d.width / d.height) ((d.rbx - px) * c + (d.rby - py) * s)
        (-((d.rbx - px) * s) + (d.rby - py) * c)).2 ∧
    cornerRBx (cornerResize g d c s true true shift minSize px py) c s = d.rbx ∧
    cornerRBy (cornerResize g d c s true true shift minSize px py) c s = d.rby := by
  simp only [cornerResize, cornerRBx, cornerRBy]
  generalize getSize shift minSize (d.width / d.height) ((d.rbx - px) * c + (d.rby - py) * s)
      (-((d.rbx - px) * s) + (d.rby - py) * c) = wh
  obtain ⟨w, h⟩ := wh
  dsimp only
  refine ⟨?_, ?_, ?_, ?_⟩
  · linear_combination w * hcs
  · linear_combination h * hcs
  · linear_combination ((w * c - h * s) / 2) * hcs
  · linear_combination ((w * s + h * c) / 2) * hcs

/-- Branch analysis of `cornerResize` for a bottom-left drag (anchor:
frozen top-right corner). -/
lemma cornerResize_tf_spec (g : Geom α) (d : DragSnap α) (c s : α)
    (hcs : c ^ 2 + s ^ 2 = 1) (shift : Bool) (minSize px py : α) :
    (cornerResize g d c s true false shift minSize px py).width =
      (getSize shift minSize (d.width / d.height) ((d.rtx - px) * c - (py - d.rty) * s)
        ((d.rtx - px) * s + (py - d.rty) * c)).1 ∧
    (cornerResize g d c s true false shift minSize px py).height =
      (getSize shift minSize (d.width / d.height) ((d.rtx - px) * c - (py - d.rty) * s)
        ((d.rtx - px) * s + (py - d.rty) * c)).2 ∧
    cornerRTx (cornerResize g d c s true false shift minSize px py) c s = d.rtx ∧
    cornerRTy (cornerResize g d c s true false shift minSize px py) c s = d.rty := by
  simp only [cornerResize, cornerRTx, cornerRTy]
  generalize getSize shift minSize (d.width / d.height) ((d.rtx - px) * c - (py - d.rty) * s)
      ((d.rtx - px) * s + (py - d.rty) * c) = wh
  obtain ⟨w, h⟩ := wh
  dsimp only
  refine ⟨?_, ?_, ?_, ?_⟩
  · linear_combination w * hcs
  · linear_combination h * hcs
  · linear_combination ((w * c + h * s) / 2) * hcs
  · linear_combination ((w * s - h * c) / 2) * hcs

/-- Branch analysis of `cornerResize` for a top-right drag (anchor: frozen
bottom-left corner). -/
lemma cornerResize_ft_spec (g : Geom α) (d : DragSnap α) (c s : α)
    (hcs : c ^ 2 + s ^ 2 = 1) (shift : Bool) (minSize px py : α) :
    (cornerResize g d c s false true shift minSize px py).width =
      (getSize shift minSize (d.width / d.height) ((px - d.lbx) * c - (d.lby - py) * s)
        ((px - d.lbx) * s + (d.lby - py) * c)).1 ∧
    (cornerResize g d c s false true shift minSize px py).height =
      (getSize shift minSize (d.width / d.height) ((px - d.lbx) * c - (d.lby - py) * s)
        ((px - d.lbx) * s + (d.lby - py) * c)).2 ∧
    cornerLBx (cornerResize g d c s false true shift minSize px py) c s = d.lbx ∧
    cornerLBy (cornerResize g d c s false true shift minSize px py) c s = d.lby := by
  simp only [cornerResize, cornerLBx, cornerLBy]
  generalize getSize shift minSize (d.width / d.height) ((px - d.lbx) * c - (d.lby - py) * s)
      ((px - d.lbx) * s + (d.lby - py) * c) = wh
  obtain ⟨w, h⟩ := wh
  dsimp only
  refine ⟨?_, ?_, ?_, ?_⟩
  · linear_combination w * hcs
  · linear_combination h * hcs
  · linear_combination (-((w * c + h * s) / 2)) * hcs
  · linear_combination (-((w * s - h * c) / 2)) * hcs

/-- Branch analysis of `cornerResize` for a bottom-right drag (anchor:
frozen top-left corner). -/
lemma cornerResize_ff_spec (g : Geom α) (d : DragSnap α) (c s : α)
    (hcs : c ^ 2 + s ^ 2 = 1) (shift : Bool) (minSize px py : α) :
    (cornerResize g d c s false false shift minSize px py).width =
      (getSize shift minSize (d.width / d.height) ((px - d.ltx) * c + (py - d.lty) * s)
        (-((px - d.ltx) * s) + (py - d.lty) * c)).1 ∧
    (cornerResize g d c s false false shift minSize px py).height =
      (getSize shift minSize (d.width / d.height) ((px - d.ltx) * c + (py - d.lty) * s)
        (-((px - d.ltx) * s) + (py - d.lty) * c)).2 ∧
    cornerLTx (cornerResize g d c s false false shift minSize px py) c s = d.ltx ∧
    cornerLTy (cornerResize g d c s false false shift minSize px py) c s = d.lty := by
  simp only [cornerResize, cornerLTx, cornerLTy]
  generalize getSize shift minSize (d.width / d.height) ((px - d.ltx) * c + (py - d.lty) * s)
      (-((px - d.ltx) * s) + (py - d.lty) * c) = wh
  obtain ⟨w, h⟩ := wh
  dsimp only
  refine ⟨?_, ?_, ?_, ?_⟩
  · linear_combination w * hcs
  · linear_combination h * hcs
  · linear_combination (-((w * c - h * s) / 2)) * hcs
  · linear_combination (-((w * s + h * c) / 2)) * hcs

/-- C1: Corner-resize anchoring. For every start geometry and pointer
position, with `(c, s)` the cosine/sine of the rotation, the corner
resolver leaves the world coordinates of the corner diagonally opposite
the dragged corner unchanged, the opposite corner being the one frozen in
the `onPointerdown` snapshot; and concretely, for an element at
center `(150, 150)`, size `(100, 100)`, rotation `0`, dragging the
bottom-right corner to `(250, 250)` (a move by `(+50, +50)`) with no
modifiers yields size `(150, 150)`, center `(175, 175)`, with the top-left
corner fixed at `(100, 100)`. -/
theorem corner_resize_anchoring {α : Type} [LinearOrderedField α]
    (g : Geom α) (c s : α) (hcs : c ^ 2 + s ^ 2 = 1)
    (isLeft isTop shift : Bool) (minSize px py : α) :
    (oppCornerX (cornerResize g (mkDragSnap g c s) c s isLeft isTop shift minSize px py)
        c s isLeft isTop = oppCornerX g c s isLeft isTop ∧
      oppCornerY (cornerResize g (mkDragSnap g c s) c s isLeft isTop shift minSize px py)
        c s isLeft isTop = oppCornerY g c s isLeft isTop) ∧
    (cornerResize (⟨150, 150, 100, 100, 0, 0, 0, 0, 0⟩ : Geom ℚ)
        (mkDragSnap ⟨150, 150, 100, 100, 0, 0, 0, 0, 0⟩ 1 0) 1 0 false false false 40 250 250 =
        ⟨175, 175, 150, 150, 0, 0, 0, 0, 0⟩ ∧
      cornerLTx (⟨175, 175, 150, 150, 0, 0, 0, 0, 0⟩ : Geom ℚ) 1 0 = 100 ∧
      cornerLTy (⟨175, 175, 150, 150, 0, 0, 0, 0, 0⟩ : Geom ℚ) 1 0 = 100) := by
  constructor
  · cases isLeft <;> cases isTop <;> simp only [oppCornerX, oppCornerY]
    · exact ⟨(cornerResize_ff_spec g (mkDragSnap g c s) c s hcs shift minSize px py).2.2.1,
        (cornerResize_ff_spec g (mkDragSnap g c s) c s hcs shift minSize px py).2.2.2⟩
    · exact ⟨(cornerResize_ft_spec g (mkDragSnap g c s) c s hcs shift minSize px py).2.2.1,
        (cornerResize_ft_spec g (mkDragSnap g c s) c s hcs shift minSize px py).2.2.2⟩
    · exact ⟨(cornerResize_tf_spec g (mkDragSnap g c s) c s hcs shift minSize px py).2.2.1,
        (cornerResize_tf_spec g (mkDragSnap g c s) c s hcs shift minSize px py).2.2.2⟩
    · exact ⟨(cornerResize_tt_spec g (mkDragSnap g c s) c s hcs shift minSize px py).2.2.1,
        (cornerResize_tt_spec g (mkDragSnap g c s) c s hcs shift minSize px py).2.2.2⟩
  · refine ⟨?_, ?_, ?_⟩
    · norm_num [cornerResize, mkDragSnap, getSize, cornerLTx, cornerLTy, cornerRTx, cornerRTy,
        cornerLBx, cornerLBy, cornerRBx, cornerRBy, Geom.mk.injEq, max_def]
    · norm_num [cornerLTx]
    · norm_num [cornerLTy]

/-- Witness for C1: the anchoring theorem applied at the concrete
scenario of the claim (rotation 0, bottom-right drag). -/
theorem corner_resize_anchoring_witness :
    oppCornerX (cornerResize (⟨150, 150, 100, 100, 0, 0, 0, 0, 0⟩ : Geom ℚ)
        (mkDragSnap ⟨150, 150, 100, 100, 0, 0, 0, 0, 0⟩ 1 0) 1 0 false false false 40 250 250)
      1 0 false false =
      oppCornerX (⟨150, 150, 100, 100, 0, 0, 0, 0, 0⟩ : Geom ℚ) 1 0 false false :=
  ((corner_resize_anchoring (⟨150, 150, 100, 100, 0, 0, 0, 0, 0⟩ : Geom ℚ) 1 0 (by norm_num)
    false false false 40 250 250).1).1

/-- The four edge handles of `getBorderProps` in `DragControl.vue`. -/
inductive BorderDir
  | l
  | r
  | t
  | b
  deriving DecidableEq

/-- Edge-resize resolver: the `onPointermove` handler of
`getBorderProps(dir)` in `DragControl.vue`. The anchor is the midpoint of
the opposite edge, taken from the frozen snapshot corners. The `shift`
parameter mirrors the modifier state delivered with the pointer event: the
source handler never reads it (edge resize has no aspect lock). -/
def borderResize (g : Geom α) (d : DragSnap α) (c s : α) (dir : BorderDir)
    (shift : Bool) (minSize px py : α) : Geom α :=
  match dir with
  | .l =>
      let rx := (d.rtx + d.rbx) / 2
      let ry := (d.rty + d.rby) / 2
      let w := max ((rx - px) * c + (ry - py) * s) minSize
      { g with width := w, x0 := rx - w * c / 2, y0 := ry - w * s / 2 }
  | .r =>
      let lx := (d.ltx + d.lbx) / 2
      let ly := (d.lty + d.lby) / 2
      let w := max ((px - lx) * c + (py - ly) * s) minSize
      { g with width := w, x0 := lx + w * c / 2, y0 := ly + w * s / 2 }
  | .t =>
      let bx := (d.lbx + d.rbx) / 2
      let by0 := (d.lby + d.rby) / 2
      let h := max ((by0 - py) * c - (bx - px) * s) minSize
      { g with height := h, x0 := bx + h * s / 2, y0 := by0 - h * c / 2 }
  | .b =>
      let tx := (d.ltx + d.rtx) / 2
      let ty := (d.lty + d.rty) / 2
      let h := max ((py - ty) * c - (px - tx) * s) minSize
      { g with height := h, x0 := tx - h * s / 2, y0 := ty + h * c / 2 }

/-- With the aspect modifier, `getSize` always returns a pair in the
original ratio `wOverH`, as long as the ratio and the floor are positive. -/
lemma getSize_ratio_eq (minSize wOverH w1 h1 : α) (hmin : 0 < minSize)
    (hr : 0 < wOverH) :
    (getSize true minSize wOverH w1 h1).1 / (getSize true minSize wOverH w1 h1).2 = wOverH := by
  simp only [getSize, if_pos]
  have hwmin : (0 : α) < max minSize (minSize * wOverH) := lt_max_of_lt_left hmin
  have hw : (0 : α) < max (max w1 (h1 * wOverH)) (max minSize (minSize * wOverH)) :=
    lt_max_of_lt_right hwmin
  rw [div_div_eq_mul_div, mul_comm, mul_div_assoc, div_self hw.ne', mul_one]

/-- C2 (amended): with the aspect-lock modifier held, the corner-resize
resolver commits a geometry whose width/height ratio equals the
width/height ratio captured in the start snapshot (positive snapshot
dimensions, non-arrow floor 40); the edge-resize resolver, by contrast,
ignores the modifier entirely: its result does not depend on the shift
flag. -/
theorem aspect_lock_resize_amended {α : Type} [LinearOrderedField α]
    (g : Geom α) (d : DragSnap α) (c s : α) (hcs : c ^ 2 + s ^ 2 = 1)
    (hw : 0 < d.width) (hh : 0 < d.height)
    (isLeft isTop : Bool) (px py : α) :
    (cornerResize g d c s isLeft isTop true 40 px py).width /
        (cornerResize g d c s isLeft isTop true 40 px py).height = d.width / d.height ∧
    ∀ (dir : BorderDir) (sh1 sh2 : Bool) (minSize qx qy : α),
      borderResize g d c s dir sh1 minSize qx qy = borderResize g d c s dir sh2 minSize qx qy := by
  have hr : (0 : α) < d.width / d.height := div_pos hw hh
  have h40 : (0 : α) < 40 := by norm_num
  constructor
  · cases isLeft <;> cases isTop
    · obtain ⟨hW, hH, -, -⟩ := cornerResize_ff_spec g d c s hcs true 40 px py
      rw [hW, hH, getSize_ratio_eq _ _ _ _ h40 hr]
    · obtain ⟨hW, hH, -, -⟩ := cornerResize_ft_spec g d c s hcs true 40 px py
      rw [hW, hH, getSize_ratio_eq _ _ _ _ h40 hr]
    · obtain ⟨hW, hH, -, -⟩ := cornerResize_tf_spec g d c s hcs true 40 px py
      rw [hW, hH, getSize_ratio_eq _ _ _ _ h40 hr]
    · obtain ⟨hW, hH, -, -⟩ := cornerResize_tt_spec g d c s hcs true 40 px py
      rw [hW, hH, getSize_ratio_eq _ _ _ _ h40 hr]
  · intro dir sh1 sh2 minSize qx qy
    rfl

/-- Counterexample to C2 as stated: for a square at center `(150, 150)`,
size `(100, 100)`, rotation `0`, dragging the right edge handle to
`(300, 150)` with the aspect modifier held commits width 200 and leaves
height 100, so the committed ratio 2 differs from the original ratio 1:
edge resize does not respect the aspect lock. -/
theorem aspect_lock_resize_cex :
    (borderResize (⟨150, 150, 100, 100, 0, 0, 0, 0, 0⟩ : Geom ℚ)
          (mkDragSnap ⟨150, 150, 100, 100, 0, 0, 0, 0, 0⟩ 1 0) 1 0 BorderDir.r true 40 300 150).width /
        (borderResize (⟨150, 150, 100, 100, 0, 0, 0, 0, 0⟩ : Geom ℚ)
          (mkDragSnap ⟨150, 150, 100, 100, 0, 0, 0, 0, 0⟩ 1 0) 1 0 BorderDir.r true 40 300 150).height ≠
      (100 : ℚ) / 100 := by
  norm_num [borderResize, mkDragSnap, cornerLTx, cornerLTy, cornerRTx, cornerRTy,
    cornerLBx, cornerLBy, cornerRBx, cornerRBy, max_def]

/-- Witness for C2 (amended), at rotation 0 and a concrete corner drag. -/
theorem aspect_lock_resize_witness :
    (cornerResize (⟨150, 150, 100, 100, 0, 0, 0, 0, 0⟩ : Geom ℚ)
          (mkDragSnap ⟨150, 150, 100, 100, 0, 0, 0, 0, 0⟩ 1 0) 1 0 false false true 40 260 250).width /
        (cornerResize (⟨150, 150, 100, 100, 0, 0, 0, 0, 0⟩ : Geom ℚ)
          (mkDragSnap ⟨150, 150, 100, 100, 0, 0, 0, 0, 0⟩ 1 0) 1 0 false false true 40 260 250).height =
      (mkDragSnap (⟨150, 150, 100, 100, 0, 0, 0, 0, 0⟩ : Geom ℚ) 1 0).width /
        (mkDragSnap (⟨150, 150, 100, 100, 0, 0, 0, 0, 0⟩ : Geom ℚ) 1 0).height :=
  (aspect_lock_resize_amended (⟨150, 150, 100, 100, 0, 0, 0, 0, 0⟩ : Geom ℚ)
    (mkDragSnap ⟨150, 150, 100, 100, 0, 0, 0, 0, 0⟩ 1 0) 1 0 (by norm_num)
    (by norm_num [mkDragSnap]) (by norm_num [mkDragSnap]) false false 260 250).1

/-- Full width `Math.abs(width)` (`fullWidth` in `DragControl.vue`). -/
def fullWidth (g : Geom α) : α := |g.width|

/-- Full height `Math.abs(height)` (`fullHeight` in `DragControl.vue`). -/
def fullHeight (g : Geom α) : α := |g.height|

/-- Crop offset x in local (pre-rotation) element coordinates:
`(cropLeft - cropRight) / 100 * fullWidth / 2`. -/
def cropOffsetLocalX (g : Geom α) : α :=
  (g.cropLeft - g.cropRight) / 100 * fullWidth g / 2

/-- Crop offset y in local (pre-rotation) element coordinates:
`(cropTop - cropBottom) / 100 * fullHeight / 2`. -/
def cropOffsetLocalY (g : Geom α) : α :=
  (g.cropTop - g.cropBottom) / 100 * fullHeight g / 2

/-- Visible (cropped) center x in world coordinates, with `(c, s)` the
cosine/sine of the element's rotation: the crop offset rotated by the
element rotation and added to the geometric center. -/
def visibleCenterX (g : Geom α) (c s : α) : α :=
  g.x0 + cropOffsetLocalX g * c - cropOffsetLocalY g * s

/-- Visible (cropped) center y in world coordinates. -/
def visibleCenterY (g : Geom α) (c s : α) : α :=
  g.y0 + cropOffsetLocalX g * s + cropOffsetLocalY g * c

/-- Whether any crop is applied (`hasCrop` in `DragControl.vue`):
`cropTop > 0 || cropRight > 0 || cropBottom > 0 || cropLeft > 0`. -/
def hasCrop (g : Geom α) : Bool :=
  decide (0 < g.cropTop) || decide (0 < g.cropRight) ||
    decide (0 < g.cropBottom) || decide (0 < g.cropLeft)

/-- Rotation pivot x captured by the rotate gesture's `onPointerdown`:
the visible center when the element has crop, the geometric center
otherwise. -/
def capturePivotX (g : Geom α) (c s : α) : α :=
  if hasCrop g then visibleCenterX g c s else g.x0

/-- Rotation pivot y captured by the rotate gesture's `onPointerdown`. -/
def capturePivotY (g : Geom α) (c s : α) : α :=
  if hasCrop g then visibleCenterY g c s else g.y0

/-- One pointer-move step of the single-element rotate gesture
(`getRotateProps().onPointermove` in `DragControl.vue`): commit the new
angle, and for cropped elements recompute the geometric center as
`pivot - rotate(cropOffsetLocal, newRotation)`, where `(cN, sN)` are the
cosine/sine of the committed angle. -/
def rotateMove (g : Geom α) (pivotX pivotY angle cN sN : α) : Geom α :=
  let g1 := { g with rotate := angle }
  if hasCrop g1 then
    { g1 with
      x0 := pivotX - (cropOffsetLocalX g1 * cN - cropOffsetLocalY g1 * sN)
      y0 := pivotY - (cropOffsetLocalX g1 * sN + cropOffsetLocalY g1 * cN) }
  else g1

/-- C3: Rotation pivot invariance. For every element with a non-zero crop
field, every pointer-move of the rotate gesture recomputes the geometric
center as `center = pivot - rotate(cropOffsetLocal, newRotation)`, so the
visible (cropped) center of the committed geometry stays at the pivot
captured at gesture start, which is the start visible center — for every
committed angle (with cosine/sine pair `(cN, sN)`). -/
theorem rotation_pivot_invariance {α : Type} [LinearOrderedField α]
    (g : Geom α) (c s angle cN sN : α) (hcrop : hasCrop g = true) :
    (rotateMove g (capturePivotX g c s) (capturePivotY g c s) angle cN sN).x0 =
        capturePivotX g c s - (cropOffsetLocalX g * cN - cropOffsetLocalY g * sN) ∧
    (rotateMove g (capturePivotX g c s) (capturePivotY g c s) angle cN sN).y0 =
        capturePivotY g c s - (cropOffsetLocalX g * sN + cropOffsetLocalY g * cN) ∧
    visibleCenterX (rotateMove g (capturePivotX g c s) (capturePivotY g c s) angle cN sN) cN sN =
        visibleCenterX g c s ∧
    visibleCenterY (rotateMove g (capturePivotX g c s) (capturePivotY g c s) angle cN sN) cN sN =
        visibleCenterY g c s ∧
    (rotateMove g (capturePivotX g c s) (capturePivotY g c s) angle cN sN).rotate = angle := by
  have h1 : hasCrop ({ g with rotate := angle } : Geom α) = true := hcrop
  refine ⟨?_, ?_, ?_, ?_, ?_⟩ <;>
    simp [rotateMove, h1, capturePivotX, capturePivotY, hcrop, visibleCenterX, visibleCenterY,
      cropOffsetLocalX, cropOffsetLocalY, fullWidth, fullHeight] <;>
    ring

/-- Witness for C3: a `100 × 100` element at `(150, 150)` with crop
`(top, right, bottom, left) = (10, 0, 20, 0)`, rotated from 0° to 90°
(`(cN, sN) = (0, 1)`). -/
theorem rotation_pivot_invariance_witness :
    visibleCenterX
        (rotateMove (⟨150, 150, 100, 100, 0, 10, 0, 20, 0⟩ : Geom ℚ)
          (capturePivotX ⟨150, 150, 100, 100, 0, 10, 0, 20, 0⟩ 1 0)
          (capturePivotY ⟨150, 150, 100, 100, 0, 10, 0, 20, 0⟩ 1 0) 90 0 1) 0 1 =
      visibleCenterX (⟨150, 150, 100, 100, 0, 10, 0, 20, 0⟩ : Geom ℚ) 1 0 :=
  (rotation_pivot_invariance (⟨150, 150, 100, 100, 0, 10, 0, 20, 0⟩ : Geom ℚ) 1 0 90 0 1
    (by norm_num [hasCrop])).2.2.1

section

variable [FloorRing α]

/-- JavaScript truncating division behaviour of the remainder operator:
`Math.trunc`, i.e. floor for non-negative arguments and ceiling for
negative ones. -/
def jsTrunc (x : α) : ℤ :=
  if 0 ≤ x then ⌊x⌋ else ⌈x⌉

/-- The JavaScript remainder `a % b`: `a - b * trunc(a / b)` (sign of the
dividend). -/
def jsMod (a b : α) : α :=
  a - b * jsTrunc (a / b)

/-- For a non-negative dividend and positive divisor, the JS remainder
lies in `[0, b)`. -/
lemma jsMod_nonneg_lt (a b : α) (hb : 0 < b) (ha : 0 ≤ a) :
    0 ≤ jsMod a b ∧ jsMod a b < b := by
  have hq : 0 ≤ a / b := div_nonneg ha hb.le
  have key : b * (a / b) = a := by field_simp
  have hfl : (⌊a / b⌋ : α) ≤ a / b := Int.floor_le _
  have hfl2 : a / b < ⌊a / b⌋ + 1 := Int.lt_floor_add_one _
  unfold jsMod jsTrunc
  rw [if_pos hq]
  constructor
  · have h1 : b * (⌊a / b⌋ : α) ≤ b * (a / b) := mul_le_mul_of_nonneg_left hfl hb.le
    rw [key] at h1
    linarith
  · have h2 : b * (a / b) < b * ((⌊a / b⌋ : α) + 1) := mul_lt_mul_of_pos_left hfl2 hb
    rw [key, mul_add, mul_one] at h2
    linarith

/-- For a positive divisor, the JS remainder lies in `(-b, b)`. -/
lemma jsMod_bounds (a b : α) (hb : 0 < b) : -b < jsMod a b ∧ jsMod a b < b := by
  by_cases hq : 0 ≤ a / b
  · have ha : 0 ≤ a := by
      by_contra hneg
      push_neg at hneg
      have : a / b < 0 := div_neg_of_neg_of_pos hneg hb
      linarith
    obtain ⟨h1, h2⟩ := jsMod_nonneg_lt a b hb ha
    exact ⟨by linarith, h2⟩
  · push_neg at hq
    have key : b * (a / b) = a := by field_simp
    have hcl : a / b ≤ ⌈a / b⌉ := Int.le_ceil _
    have hcl2 : (⌈a / b⌉ : α) < a / b + 1 := Int.ceil_lt_add_one _
    unfold jsMod jsTrunc
    rw [if_neg (not_le.mpr hq)]
    constructor
    · have h1 : b * ((⌈a / b⌉ : α)) < b * (a / b + 1) := mul_lt_mul_of_pos_left hcl2 hb
      rw [mul_add, key, mul_one] at h1
      linarith
    · have h2 : b * (a / b) ≤ b * (⌈a / b⌉ : α) := mul_le_mul_of_nonneg_left hcl hb.le
      rw [key] at h2
      linarith

/-- The angle normalization `((x % 360) + 360) % 360` used by both rotate
resolvers. -/
def normalize360 (x : α) : α :=
  jsMod (jsMod x 360 + 360) 360

/-- The normalization lands in `[0, 360)`. -/
lemma normalize360_mem (x : α) : 0 ≤ normalize360 x ∧ normalize360 x < 360 := by
  have h360 : (0 : α) < 360 := by norm_num
  obtain ⟨h1, _⟩ := jsMod_bounds x 360 h360
  exact jsMod_nonneg_lt _ 360 h360 (by linarith)

end

/-- Committed rotation of one pointer-move of the single-element rotate
gesture (`getRotateProps().onPointermove` in `DragControl.vue`):
`angle = normalize(initRot + (currentMouseAngle - startMouseAngle))`, then
`Math.round(angle / 15) * 15` when shift is held. -/
def rotateCommit [FloorRing α] (initRot startMouseAngle curMouseAngle : α) (shift : Bool) : α :=
  let delta := curMouseAngle - startMouseAngle
  let angle := normalize360 (initRot + delta)
  if shift then (round (angle / 15) : α) * 15 else angle

/-- C8 (amended): every pointer-move of the rotate gesture commits
`normalize360 (initialRotation + (currentAngle - initialAngle))`, which
lies in `[0, 360)`; when the angle-snap modifier is held, the committed
rotation is instead that normalized angle rounded to a multiple of 15°,
which lies in the closed range `[0, 360]` — it can equal 360 (see the
counterexample), so it need not lie in `[0, 360)`. -/
theorem rotate_commit_range_amended {α : Type} [LinearOrderedField α] [FloorRing α]
    (initRot sm cm : α) :
    (rotateCommit initRot sm cm false = normalize360 (initRot + (cm - sm)) ∧
      0 ≤ rotateCommit initRot sm cm false ∧ rotateCommit initRot sm cm false < 360) ∧
    (rotateCommit initRot sm cm true =
        (round (normalize360 (initRot + (cm - sm)) / 15) : α) * 15 ∧
      ∃ k : ℤ, rotateCommit initRot sm cm true = (k : α) * 15 ∧
        0 ≤ rotateCommit initRot sm cm true ∧ rotateCommit initRot sm cm true ≤ 360) := by
  obtain ⟨hn0, hn360⟩ := normalize360_mem (initRot + (cm - sm))
  have heqF : rotateCommit initRot sm cm false = normalize360 (initRot + (cm - sm)) := by
    simp [rotateCommit]
  have heqT : rotateCommit initRot sm cm true =
      (round (normalize360 (initRot + (cm - sm)) / 15) : α) * 15 := by
    simp [rotateCommit]
  refine ⟨⟨heqF, by rw [heqF]; exact hn0, by rw [heqF]; exact hn360⟩, heqT, ?_⟩
  refine ⟨round (normalize360 (initRot + (cm - sm)) / 15), heqT, ?_, ?_⟩
  · rw [heqT]
    have hk0 : (0 : ℤ) ≤ round (normalize360 (initRot + (cm - sm)) / 15) := by
      rw [round_eq]
      refine Int.le_floor.mpr ?_
      push_cast
      have : 0 ≤ normalize360 (initRot + (cm - sm)) / 15 :=
        div_nonneg hn0 (by norm_num)
      linarith
    have : (0 : α) ≤ (round (normalize360 (initRot + (cm - sm)) / 15) : α) := by
      exact_mod_cast hk0
    nlinarith
  · rw [heqT]
    have hk24 : round (normalize360 (initRot + (cm - sm)) / 15) ≤ 24 := by
      rw [round_eq]
      have hlt : normalize360 (initRot + (cm - sm)) / 15 + 1 / 2 < 25 := by
        have : normalize360 (initRot + (cm - sm)) / 15 < 24 := by
          rw [div_lt_iff₀ (by norm_num : (0 : α) < 15)]
          linarith
        linarith
      have := Int.floor_lt.mpr (by exact_mod_cast hlt :
        normalize360 (initRot + (cm - sm)) / 15 + 1 / 2 < ((25 : ℤ) : α))
      omega
    have : ((round (normalize360 (initRot + (cm - sm)) / 15) : ℤ) : α) ≤ 24 := by
      exact_mod_cast hk24
    nlinarith

/-- Counterexample to C8 as stated: with initial rotation 359° and an
unmoved pointer, the normalized angle is 359, and holding shift snaps it
to `round(359 / 15) * 15 = 24 * 15 = 360`, which is outside `[0, 360)`. -/
theorem rotate_commit_range_cex :
    rotateCommit (359 : ℚ) 0 0 true = 360 ∧ ¬ rotateCommit (359 : ℚ) 0 0 true < 360 := by
  have h : rotateCommit (359 : ℚ) 0 0 true = 360 := by
    norm_num [rotateCommit, normalize360, jsMod, jsTrunc, round_eq]
  exact ⟨h, by rw [h]; norm_num⟩

/-- Per-member snapshot used by `GroupDragControl.vue`: geometry fields of
`DragElementState` captured at pointer-down (`elementSnapshots`), plus the
arrow flag. -/
structure GMember (α : Type) where
  x0 : α
  y0 : α
  width : α
  height : α
  rotate : α
  isArrow : Bool
  deriving DecidableEq

/-- The group bounding box snapshot stored in `currentDrag.groupBounds`. -/
structure GBounds (α : Type) where
  minX : α
  minY : α
  maxX : α
  maxY : α
  width : α
  height : α
  deriving DecidableEq

/-- Anchor x of a group corner resize: the bbox corner opposite the
dragged one (`anchorX = isLeft ? maxX : minX`). -/
def groupAnchorX (gb : GBounds α) (isLeft : Bool) : α :=
  if isLeft then gb.maxX else gb.minX

/-- Anchor y of a group corner resize (`anchorY = isTop ? maxY : minY`). -/
def groupAnchorY (gb : GBounds α) (isTop : Bool) : α :=
  if isTop then gb.maxY else gb.minY

/-- New group dimensions of `onPointermoveResize` in
`GroupDragControl.vue`: mouse-driven candidate sizes, floored at the
minimum size 40, then clamped to the original group aspect ratio when
shift is held. -/
def groupResizeDims (gb : GBounds α) (isLeft isTop shift : Bool) (mX mY : α) : α × α :=
  let newWidth0 := if isLeft then groupAnchorX gb isLeft - mX else mX - groupAnchorX gb isLeft
  let newHeight0 := if isTop then groupAnchorY gb isTop - mY else mY - groupAnchorY gb isTop
  let newWidth1 := max newWidth0 40
  let newHeight1 := max newHeight0 40
  if shift then
    let origR := gb.width / gb.height
    if origR < newWidth1 / newHeight1 then (newHeight1 * origR, newHeight1)
    else (newWidth1, newWidth1 / origR)
  else (newWidth1, newHeight1)

/-- Scale factor `scaleX = newWidth / origWidth` of a group resize. -/
def groupScaleX (gb : GBounds α) (isLeft isTop shift : Bool) (mX mY : α) : α :=
  (groupResizeDims gb isLeft isTop shift mX mY).1 / gb.width

/-- Scale factor `scaleY = newHeight / origHeight` of a group resize. -/
def groupScaleY (gb : GBounds α) (isLeft isTop shift : Bool) (mX mY : α) : α :=
  (groupResizeDims gb isLeft isTop shift mX mY).2 / gb.height

/-- New group center x of a group resize, keeping the anchor fixed. -/
def groupNewCenterX (gb : GBounds α) (isLeft isTop shift : Bool) (mX mY : α) : α :=
  if isLeft then groupAnchorX gb isLeft - (groupResizeDims gb isLeft isTop shift mX mY).1 / 2
  else groupAnchorX gb isLeft + (groupResizeDims gb isLeft isTop shift mX mY).1 / 2

/-- New group center y of a group resize, keeping the anchor fixed. -/
def groupNewCenterY (gb : GBounds α) (isLeft isTop shift : Bool) (mX mY : α) : α :=
  if isTop then groupAnchorY gb isTop - (groupResizeDims gb isLeft isTop shift mX mY).2 / 2
  else groupAnchorY gb isTop + (groupResizeDims gb isLeft isTop shift mX mY).2 / 2

/-- The member-update loop of `onPointermoveResize` in
`GroupDragControl.vue`: each member's offset from the original group
center `(gcX, gcY)` is scaled by `(scaleX, scaleY)` and re-rooted at the
new group center; non-arrow members also scale their own size. -/
def groupResizeMove (members : List (GMember α)) (gb : GBounds α) (gcX gcY : α)
    (isLeft isTop shift : Bool) (mX mY : α) : List (GMember α) :=
  members.map fun m =>
    { m with
      x0 := groupNewCenterX gb isLeft isTop shift mX mY +
        (m.x0 - gcX) * groupScaleX gb isLeft isTop shift mX mY
      y0 := groupNewCenterY gb isLeft isTop shift mX mY +
        (m.y0 - gcY) * groupScaleY gb isLeft isTop shift mX mY
      width := if m.isArrow then m.width else m.width * groupScaleX gb isLeft isTop shift mX mY
      height := if m.isArrow then m.height else m.height * groupScaleY gb isLeft isTop shift mX mY }

/-- C4: Group scale linearity. A group resize with scale factors
`(scaleX, scaleY)` maps the `i`-th member to a member whose center is
`newGroupCenter + (offsetX * scaleX, offsetY * scaleY)` (offsets taken
from the original gesture-start group center `(gcX, gcY)`), whose size is
multiplied by the same factors unless the member is arrow-kind (arrows
reposition but keep their size), and whose own rotation is unchanged. -/
theorem group_scale_linearity {α : Type} [LinearOrderedField α]
    (members : List (GMember α)) (gb : GBounds α) (gcX gcY : α)
    (isLeft isTop shift : Bool) (mX mY : α) (i : ℕ) (m : GMember α)
    (hm : members[i]? = some m) :
    (groupResizeMove members gb gcX gcY isLeft isTop shift mX mY)[i]? = some
      { m with
        x0 := groupNewCenterX gb isLeft isTop shift mX mY +
          (m.x0 - gcX) * groupScaleX gb isLeft isTop shift mX mY
        y0 := groupNewCenterY gb isLeft isTop shift mX mY +
          (m.y0 - gcY) * groupScaleY gb isLeft isTop shift mX mY
        width := if m.isArrow then m.width else m.width * groupScaleX gb isLeft isTop shift mX mY
        height :=
          if m.isArrow then m.height else m.height * groupScaleY gb isLeft isTop shift mX mY } ∧
    ∀ m2, (groupResizeMove members gb gcX gcY isLeft isTop shift mX mY)[i]? = some m2 →
      m2.rotate = m.rotate := by
  have h1 : (groupResizeMove members gb gcX gcY isLeft isTop shift mX mY)[i]? = some
      { m with
        x0 := groupNewCenterX gb isLeft isTop shift mX mY +
          (m.x0 - gcX) * groupScaleX gb isLeft isTop shift mX mY
        y0 := groupNewCenterY gb isLeft isTop shift mX mY +
          (m.y0 - gcY) * groupScaleY gb isLeft isTop shift mX mY
        width := if m.isArrow then m.width else m.width * groupScaleX gb isLeft isTop shift mX mY
        height :=
          if m.isArrow then m.height else m.height * groupScaleY gb isLeft isTop shift mX mY } := by
    simp [groupResizeMove, List.getElem?_map, hm]
  refine ⟨h1, fun m2 h2 => ?_⟩
  rw [h1] at h2
  cases h2
  rfl

/-- Witness for C4: a single 100 × 50 member centered at `(100, 100)`, in
a group with bbox `[50, 150] × [75, 125]`, resized from the bottom-right
corner. -/
theorem group_scale_linearity_witness :
    (groupResizeMove [(⟨100, 100, 100, 50, 0, false⟩ : GMember ℚ)]
        ⟨50, 75, 150, 125, 100, 50⟩ 100 100 false false false 250 175)[0]? = some
      { (⟨100, 100, 100, 50, 0, false⟩ : GMember ℚ) with
        x0 := groupNewCenterX ⟨50, 75, 150, 125, 100, 50⟩ false false false 250 175 +
          ((100 : ℚ) - 100) * groupScaleX ⟨50, 75, 150, 125, 100, 50⟩ false false false 250 175
        y0 := groupNewCenterY ⟨50, 75, 150, 125, 100, 50⟩ false false false 250 175 +
          ((100 : ℚ) - 100) * groupScaleY ⟨50, 75, 150, 125, 100, 50⟩ false false false 250 175
        width := if false then (100 : ℚ) else
          100 * groupScaleX ⟨50, 75, 150, 125, 100, 50⟩ false false false 250 175
        height := if false then (50 : ℚ) else
          50 * groupScaleY ⟨50, 75, 150, 125, 100, 50⟩ false false false 250 175 } :=
  (group_scale_linearity [(⟨100, 100, 100, 50, 0, false⟩ : GMember ℚ)]
    ⟨50, 75, 150, 125, 100, 50⟩ 100 100 false false false 250 175 0
    ⟨100, 100, 100, 50, 0, false⟩ rfl).1

/-- The member-update loop of the group rotate gesture
(`getRotateProps().onPointermove` in `GroupDragControl.vue`): each
member's offset from the pivot (the gesture-start group center) is
rotated by the angular delta — `(c, s)` being the cosine/sine of the
delta — and the delta is added to the member's own rotation, normalized
to `[0, 360)` by `((r + delta) % 360 + 360) % 360`. -/
def groupRotateMove [FloorRing α] (members : List (GMember α)) (pivotX pivotY delta c s : α) :
    List (GMember α) :=
  members.map fun m =>
    { m with
      x0 := pivotX + ((m.x0 - pivotX) * c - (m.y0 - pivotY) * s)
      y0 := pivotY + ((m.x0 - pivotX) * s + (m.y0 - pivotY) * c)
      rotate := normalize360 (m.rotate + delta) }

/-- C5: Group rotate composition. Each member's offset from the pivot is
rotated by the standard 2D rotation matrix of the delta, the delta is
added to the member's own rotation normalized to `[0, 360)`; and
concretely, two elements at centers `(100, 100)` and `(200, 100)` with
rotation 0, group-rotated by 90° (`(c, s) = (0, 1)`) about pivot
`(150, 100)`, end at centers `(150, 50)` and `(150, 150)` with rotation
90°. -/
theorem group_rotate_composition {α : Type} [LinearOrderedField α] [FloorRing α]
    (members : List (GMember α)) (pivotX pivotY delta c s : α) (i : ℕ) (m : GMember α)
    (hm : members[i]? = some m) :
    ((groupRotateMove members pivotX pivotY delta c s)[i]? = some
        { m with
          x0 := pivotX + ((m.x0 - pivotX) * c - (m.y0 - pivotY) * s)
          y0 := pivotY + ((m.x0 - pivotX) * s + (m.y0 - pivotY) * c)
          rotate := normalize360 (m.rotate + delta) } ∧
      0 ≤ normalize360 (m.rotate + delta) ∧ normalize360 (m.rotate + delta) < 360) ∧
    groupRotateMove [(⟨100, 100, 40, 40, 0, false⟩ : GMember ℚ), ⟨200, 100, 40, 40, 0, false⟩]
        150 100 90 0 1 =
      [⟨150, 50, 40, 40, 90, false⟩, ⟨150, 150, 40, 40, 90, false⟩] := by
  refine ⟨⟨?_, normalize360_mem _⟩, ?_⟩
  · simp [groupRotateMove, List.getElem?_map, hm]
  · norm_num [groupRotateMove, normalize360, jsMod, jsTrunc, GMember.mk.injEq]

/-- Witness for C5: the general statement applied to the first member of
the concrete two-element scenario. -/
theorem group_rotate_composition_witness :
    (groupRotateMove [(⟨100, 100, 40, 40, 0, false⟩ : GMember ℚ), ⟨200, 100, 40, 40, 0, false⟩]
        150 100 90 0 1)[0]? = some
      { (⟨100, 100, 40, 40, 0, false⟩ : GMember ℚ) with
        x0 := 150 + (((100 : ℚ) - 150) * 0 - ((100 : ℚ) - 100) * 1)
        y0 := 100 + (((100 : ℚ) - 150) * 1 + ((100 : ℚ) - 100) * 0)
        rotate := normalize360 ((0 : ℚ) + 90) } :=
  ((group_rotate_composition
    [(⟨100, 100, 40, 40, 0, false⟩ : GMember ℚ), ⟨200, 100, 40, 40, 0, false⟩]
    150 100 90 0 1 0 ⟨100, 100, 40, 40, 0, false⟩ rfl).1).1

/-- The running best snap match of `findSnap` (`useDragElements.ts`):
distance, adjusted coordinate, and the guide-line target. -/
structure SnapBest (α : Type) where
  dist : α
  val : α
  line : α
  deriving DecidableEq

/-- The `!best || dist < best.dist` test of `findSnap`. -/
def betterThan (best : Option (SnapBest α)) (dist : α) : Bool :=
  match best with
  | none => true
  | some b => decide (dist < b.dist)

/-- One conditional update of `findSnap`'s best match:
`if (dist < SNAP_THRESHOLD && (!best || dist < best.dist)) best = {...}`,
with the snap threshold fixed at 8 slide-space units. -/
def considerCand (best : Option (SnapBest α)) (dist val line : α) : Option (SnapBest α) :=
  if dist < 8 ∧ betterThan best dist = true then some ⟨dist, val, line⟩ else best

/-- Processing of one candidate target `t` inside `findSnap`'s loop: the
three alignments in source order — center-to-target, leading-edge (value
minus half size), trailing-edge (value plus half size). -/
def snapStep (value half : α) (best : Option (SnapBest α)) (t : α) : Option (SnapBest α) :=
  let b1 := considerCand best |value - t| t t
  let b2 := considerCand b1 |value - half - t| (t + half) t
  considerCand b2 |value + half - t| (t - half) t

/-- Result record of `findSnap`: adjusted coordinate and guide lines. -/
structure SnapResult (α : Type) where
  value : α
  lines : List α
  deriving DecidableEq

/-- The `findSnap` function of `useDragElements.ts`. -/
def findSnap (value half : α) (targets : List α) : SnapResult α :=
  match targets.foldl (snapStep value half) none with
  | some b => ⟨b.val, [b.line]⟩
  | none => ⟨value, []⟩

/-- `IsCandAt value half t dist val` says `(dist, val)` is one of the
three alignment candidates that `findSnap` evaluates for target `t`. -/
def IsCandAt (value half t dist val : α) : Prop :=
  (dist = |value - t| ∧ val = t) ∨
  (dist = |value - half - t| ∧ val = t + half) ∨
  (dist = |value + half - t| ∧ val = t - half)

/-- Loop invariant of `findSnap`'s best-match accumulator, over an
abstract set `P` of already-considered `(dist, val, line)` triples: `none`
means no considered candidate was within the threshold; `some b` is a
considered candidate within the threshold of minimal distance. -/
def SnapInvP (P : α → α → α → Prop) : Option (SnapBest α) → Prop
  | none => ∀ d v l, P d v l → (8 : α) ≤ d
  | some b => b.dist < 8 ∧ P b.dist b.val b.line ∧ ∀ d v l, P d v l → b.dist ≤ d

/-- The invariant respects pointwise equivalence of the candidate set. -/
lemma snapInvP_mono (P Q : α → α → α → Prop) (h : ∀ d v l, P d v l ↔ Q d v l)
    (b : Option (SnapBest α)) (hb : SnapInvP P b) : SnapInvP Q b := by
  cases b with
  | none => intro d v l hq; exact hb d v l ((h d v l).mpr hq)
  | some bb =>
      exact ⟨hb.1, (h _ _ _).mp hb.2.1, fun d v l hq => hb.2.2 d v l ((h d v l).mpr hq)⟩

/-- One conditional update preserves the invariant, adding the considered
triple to the candidate set. -/
lemma considerCand_invP (P : α → α → α → Prop) (b : Option (SnapBest α)) (d v l : α)
    (h : SnapInvP P b) :
    SnapInvP (fun d2 v2 l2 => P d2 v2 l2 ∨ (d2 = d ∧ v2 = v ∧ l2 = l))
      (considerCand b d v l) := by
  unfold considerCand
  split_ifs with hcond
  · obtain ⟨hd8, hbet⟩ := hcond
    refine ⟨hd8, Or.inr ⟨rfl, rfl, rfl⟩, ?_⟩
    rintro d2 v2 l2 (hp | ⟨hd2, -, -⟩)
    · cases b with
      | none => exact le_of_lt (lt_of_lt_of_le hd8 (h d2 v2 l2 hp))
      | some bb =>
          have hlt : d < bb.dist := of_decide_eq_true (by simpa [betterThan] using hbet)
          exact le_of_lt (lt_of_lt_of_le hlt (h.2.2 d2 v2 l2 hp))
    · exact hd2.ge
  · cases b with
    | none =>
        rintro d2 v2 l2 (hp | ⟨hd2, -, -⟩)
        · exact h d2 v2 l2 hp
        · rw [hd2]
          by_contra hlt
          push_neg at hlt
          exact hcond ⟨hlt, rfl⟩
    | some bb =>
        obtain ⟨h8, hm, hmin⟩ := h
        refine ⟨h8, Or.inl hm, ?_⟩
        rintro d2 v2 l2 (hp | ⟨hd2, -, -⟩)
        · exact hmin d2 v2 l2 hp
        · rw [hd2]
          by_cases hd : d < 8
          · have hnot : ¬ d < bb.dist := fun hl =>
              hcond ⟨hd, by simpa [betterThan] using decide_eq_true hl⟩
            exact not_lt.mp hnot
          · exact le_trans (le_of_lt h8) (not_lt.mp hd)

/-- Folding `snapStep` over a target list preserves the invariant, adding
all alignment candidates of the traversed targets. -/
lemma foldl_snapStep_invP (value half : α) :
    ∀ (ts : List α) (P : α → α → α → Prop) (b : Option (SnapBest α)),
      SnapInvP P b →
      SnapInvP (fun d v l => P d v l ∨ ∃ t ∈ ts, l = t ∧ IsCandAt value half t d v)
        (ts.foldl (snapStep value half) b) := by
  intro ts
  induction ts with
  | nil =>
      intro P b h
      refine snapInvP_mono P _ (fun d v l => ?_) b h
      simp
  | cons t ts ih =>
      intro P b h
      have h1 := considerCand_invP P b |value - t| t t h
      have h2 := considerCand_invP _ _ |value - half - t| (t + half) t h1
      have h3 := considerCand_invP _ _ |value + half - t| (t - half) t h2
      have h4 := ih _ _ h3
      refine snapInvP_mono _ _ (fun d v l => ?_) _ h4
      constructor
      · rintro (h' | ⟨t', ht', hl, hc⟩)
        · rcases h' with ((hp | hA) | hB) | hC
          · exact Or.inl hp
          · exact Or.inr ⟨t, List.mem_cons_self t ts, hA.2.2, Or.inl ⟨hA.1, hA.2.1⟩⟩
          · exact Or.inr ⟨t, List.mem_cons_self t ts, hB.2.2, Or.inr (Or.inl ⟨hB.1, hB.2.1⟩)⟩
          · exact Or.inr ⟨t, List.mem_cons_self t ts, hC.2.2, Or.inr (Or.inr ⟨hC.1, hC.2.1⟩)⟩
        · exact Or.inr ⟨t', List.mem_cons_of_mem t ht', hl, hc⟩
      · rintro (hp | ⟨t', ht', hl, hc⟩)
        · exact Or.inl (Or.inl (Or.inl (Or.inl hp)))
        · rcases List.mem_cons.mp ht' with heq | ht''
          · subst heq
            rcases hc with ⟨hd, hv⟩ | ⟨hd, hv⟩ | ⟨hd, hv⟩
            · exact Or.inl (Or.inl (Or.inl (Or.inr ⟨hd, hv, hl⟩)))
            · exact Or.inl (Or.inl (Or.inr ⟨hd, hv, hl⟩))
            · exact Or.inl (Or.inr ⟨hd, hv, hl⟩)
          · exact Or.inr ⟨t', ht'', hl, hc⟩

/-- The final accumulator of `findSnap` satisfies the invariant over all
alignment candidates of all targets. -/
lemma findSnap_invP (value half : α) (targets : List α) :
    SnapInvP (fun d v l => ∃ t ∈ targets, l = t ∧ IsCandAt value half t d v)
      (targets.foldl (snapStep value half) none) := by
  have h0 : SnapInvP (fun _ _ _ => (False : Prop)) (none : Option (SnapBest α)) := by
    intro d v l h
    exact h.elim
  have h1 := foldl_snapStep_invP value half targets _ _ h0
  refine snapInvP_mono _ _ (fun d v l => ?_) _ h1
  simp

/-- Every alignment candidate distance is an absolute value, hence
non-negative. -/
lemma isCandAt_dist_nonneg (value half t d v : α) (h : IsCandAt value half t d v) :
    0 ≤ d := by
  rcases h with ⟨hd, -⟩ | ⟨hd, -⟩ | ⟨hd, -⟩ <;> rw [hd] <;> exact abs_nonneg _

/-- A zero-distance alignment candidate's adjusted value is the proposed
value itself. -/
lemma isCandAt_zero_val (value half t v : α) (h : IsCandAt value half t 0 v) :
    v = value := by
  rcases h with ⟨hd, hv⟩ | ⟨hd, hv⟩ | ⟨hd, hv⟩
  · have := (abs_eq_zero.mp hd.symm)
    have ht : value = t := by linarith [sub_eq_zero.mp this]
    rw [hv, ← ht]
  · have := (abs_eq_zero.mp hd.symm)
    have ht : t = value - half := by linarith [sub_eq_zero.mp this]
    rw [hv, ht]
    ring
  · have := (abs_eq_zero.mp hd.symm)
    have ht : t = value + half := by linarith [sub_eq_zero.mp this]
    rw [hv, ht]
    ring

/-- C6 (amended): `findSnap` evaluates the three alignments against every
candidate target. Whenever some alignment of some target lies strictly
within the 8-unit threshold, `findSnap` reports a guide line, and any
reported guide is a target with an alignment strictly within the
threshold of minimal distance among all alignments of all targets, the
returned coordinate being that alignment's adjusted value; if no
alignment is strictly within the threshold, the input coordinate is
returned unchanged with no guide; and if the proposed center already
equals a candidate target, the returned coordinate is that same value,
and the reported guide is a target with a zero-distance alignment whose
adjusted value is the proposed center — though not necessarily the
center-matching target itself (see the counterexample). -/
theorem snap_resolution_amended {α : Type} [LinearOrderedField α]
    (value half : α) (targets : List α) :
    ((∃ t ∈ targets, ∃ d v, IsCandAt value half t d v ∧ d < 8) →
      ∃ l, (findSnap value half targets).lines = [l] ∧ l ∈ targets ∧
        ∃ d, d < 8 ∧ IsCandAt value half l d (findSnap value half targets).value ∧
          ∀ t ∈ targets, ∀ d2 v2, IsCandAt value half t d2 v2 → d ≤ d2) ∧
    ((∀ t ∈ targets, ∀ d v, IsCandAt value half t d v → 8 ≤ d) →
      findSnap value half targets = ⟨value, []⟩) ∧
    (∀ l, (findSnap value half targets).lines = [l] →
      l ∈ targets ∧ ∃ d, d < 8 ∧ IsCandAt value half l d (findSnap value half targets).value ∧
        ∀ t ∈ targets, ∀ d2 v2, IsCandAt value half t d2 v2 → d ≤ d2) ∧
    (value ∈ targets →
      (findSnap value half targets).value = value ∧
      ∃ l, (findSnap value half targets).lines = [l] ∧ l ∈ targets ∧
        IsCandAt value half l 0 value) := by
  have hinv := findSnap_invP value half targets
  cases hb : targets.foldl (snapStep value half) none with
  | none =>
      rw [hb] at hinv
      have hfs : findSnap value half targets = ⟨value, []⟩ := by
        simp [findSnap, hb]
      refine ⟨?_, fun _ => hfs, ?_, ?_⟩
      · rintro ⟨t, ht, d, v, hc, hd8⟩
        exact absurd (hinv d v t ⟨t, ht, rfl, hc⟩) (not_le.mpr hd8)
      · intro l hl
        rw [hfs] at hl
        simp at hl
      · intro hmem
        exfalso
        have h0 := hinv |value - value| value value ⟨value, hmem, rfl, Or.inl ⟨rfl, rfl⟩⟩
        simp at h0
        exact absurd h0 (by norm_num)
  | some b =>
      rw [hb] at hinv
      obtain ⟨h8, ⟨t0, ht0, hline, hcand⟩, hmin⟩ := hinv
      have hfs : findSnap value half targets = ⟨b.val, [b.line]⟩ := by
        simp [findSnap, hb]
      refine ⟨?_, ?_, ?_, ?_⟩
      · intro _
        refine ⟨b.line, ?_, ?_, b.dist, h8, ?_, ?_⟩
        · rw [hfs]
        · rw [hline]
          exact ht0
        · rw [hfs, hline]
          exact hcand
        · intro t ht d2 v2 hc2
          exact hmin d2 v2 t ⟨t, ht, rfl, hc2⟩
      · intro hall
        exact absurd (hall t0 ht0 b.dist b.val hcand) (not_le.mpr h8)
      · intro l hl
        rw [hfs] at hl
        simp at hl
        subst hl
        refine ⟨?_, b.dist, h8, ?_, ?_⟩
        · rw [hline]
          exact ht0
        · rw [hfs, hline]
          exact hcand
        · intro t ht d2 v2 hc2
          exact hmin d2 v2 t ⟨t, ht, rfl, hc2⟩
      · intro hmem
        have hle := hmin |value - value| value value ⟨value, hmem, rfl, Or.inl ⟨rfl, rfl⟩⟩
        have habs : |value - value| = 0 := by simp
        rw [habs] at hle
        have hge := isCandAt_dist_nonneg value half t0 b.dist b.val hcand
        have hdist0 : b.dist = 0 := le_antisymm hle hge
        have hval : b.val = value := by
          refine isCandAt_zero_val value half t0 b.val ?_
          rw [← hdist0]
          exact hcand
        rw [hdist0, hval] at hcand
        refine ⟨?_, b.line, ?_, ?_, ?_⟩
        · rw [hfs]
          exact hval
        · rw [hfs]
        · rw [hline]
          exact ht0
        · rw [hline]
          exact hcand

/-- Counterexample to C6 as stated: with proposed center 8, half-extent 4
and targets `[4, 8]`, the center equals the target 8 exactly, and the
returned coordinate is indeed 8 — but the reported guide is the target 4
(whose leading-edge alignment also has distance zero and was encountered
first), not the center-matching target 8. -/
theorem snap_resolution_cex :
    (8 : ℚ) ∈ ([4, 8] : List ℚ) ∧
    findSnap (8 : ℚ) 4 [4, 8] = ⟨8, [4]⟩ ∧
    (findSnap (8 : ℚ) 4 [4, 8]).lines ≠ [8] := by
  refine ⟨by norm_num, ?_, ?_⟩
  · norm_num [findSnap, snapStep, considerCand, betterThan]
  · norm_num [findSnap, snapStep, considerCand, betterThan]

/-- Witness for C6 (amended): proposed center 5 on the single target 5. -/
theorem snap_resolution_witness :
    (findSnap (5 : ℚ) 3 [5]).value = 5 ∧
    ∃ l, (findSnap (5 : ℚ) 3 [5]).lines = [l] ∧ l ∈ ([5] : List ℚ) ∧
      IsCandAt 5 3 l 0 5 :=
  (snap_resolution_amended (5 : ℚ) 3 [5]).2.2.2 (by simp)

/-- The `HistorySnapshot` record of `useDragElements.ts`: all geometry
fields captured by `getCurrentSnapshot`. -/
structure HistSnap (β : Type) where
  x0 : β
  y0 : β
  width : β
  height : β
  rotate : β
  zIndex : β
  cropTop : β
  cropRight : β
  cropBottom : β
  cropLeft : β
  deriving DecidableEq

/-- Per-element history state: current geometry, undo stack (`history`)
and redo stack, with the most recent entry at the head. -/
structure ElemHist (β : Type) where
  geom : HistSnap β
  history : List (HistSnap β)
  redoStack : List (HistSnap β)
  deriving DecidableEq

/-- The history cap (`maxHistorySize` in `useDragElements.ts`). -/
def maxHistorySize : ℕ := 50

/-- `saveSnapshot`: push the current geometry onto the undo stack,
dropping the oldest entry beyond the cap (`shift()` removes the oldest,
here the last since the head is the newest) and clearing the redo
stack. -/
def saveSnapshot {β : Type} (s : ElemHist β) : ElemHist β :=
  let h1 := s.geom :: s.history
  { s with
    history := if maxHistorySize < h1.length then h1.dropLast else h1
    redoStack := [] }

/-- `undo`: no-op on an empty undo stack; otherwise push the current
geometry onto the redo stack, pop the undo stack and apply the popped
snapshot. -/
def undo {β : Type} (s : ElemHist β) : ElemHist β :=
  match s.history with
  | [] => s
  | prev :: rest => ⟨prev, rest, s.geom :: s.redoStack⟩

/-- `redo`: no-op on an empty redo stack; otherwise push the current
geometry onto the undo stack, pop the redo stack and apply the popped
snapshot. -/
def redo {β : Type} (s : ElemHist β) : ElemHist β :=
  match s.redoStack with
  | [] => s
  | next :: rest => ⟨next, s.geom :: s.history, rest⟩

/-- A geometry mutation: overwrite the current geometry, touching neither
stack (gesture pointer-moves write the geometry refs directly). -/
def setGeom {β : Type} (g : HistSnap β) (s : ElemHist β) : ElemHist β :=
  { s with geom := g }

/-- The operations a gesture sequence performs between undos: snapshot
saves and geometry mutations. -/
inductive HistOp (β : Type) where
  | save
  | mutate (g : HistSnap β)

/-- Run a sequence of saves and mutations. -/
def runOps {β : Type} (ops : List (HistOp β)) (s : ElemHist β) : ElemHist β :=
  ops.foldl
    (fun st op =>
      match op with
      | HistOp.save => saveSnapshot st
      | HistOp.mutate g => setGeom g st)
    s

/-- `undo` is the identity on an empty undo stack. -/
lemma undo_empty {β : Type} (s : ElemHist β) (h : s.history = []) : undo s = s := by
  unfold undo
  rw [h]

/-- `redo` is the identity on an empty redo stack. -/
lemma redo_empty {β : Type} (s : ElemHist β) (h : s.redoStack = []) : redo s = s := by
  unfold redo
  rw [h]

/-- `redo` inverts `undo` whenever the undo stack is non-empty. -/
lemma redo_undo {β : Type} (s : ElemHist β) (p : HistSnap β) (rest : List (HistSnap β))
    (h : s.history = p :: rest) : redo (undo s) = s := by
  obtain ⟨g, hist, rs⟩ := s
  simp only at h
  subst h
  rfl

/-- `N` undos followed by `N` redos restore the state exactly when the
undo stack holds at least `N` entries. -/
lemma redo_undo_iter {β : Type} :
    ∀ (N : ℕ) (s : ElemHist β), N ≤ s.history.length → redo^[N] (undo^[N] s) = s := by
  intro N
  induction N with
  | zero => intro s _; rfl
  | succ N ih =>
      intro s hlen
      obtain ⟨g, hist, rs⟩ := s
      cases hist with
      | nil => simp at hlen
      | cons p rest =>
          rw [Function.iterate_succ_apply']
          rw [Function.iterate_succ_apply]
          have hu : undo ⟨g, p :: rest, rs⟩ = ⟨p, rest, g :: rs⟩ := rfl
          rw [hu, ih ⟨p, rest, g :: rs⟩ (by simpa using Nat.succ_le_succ_iff.mp hlen)]
          rfl

/-- Undoing `k` times shortens the undo stack by `k` (truncated). -/
lemma undo_iter_length {β : Type} :
    ∀ (k : ℕ) (s : ElemHist β), (undo^[k] s).history.length = s.history.length - k := by
  intro k
  induction k with
  | zero => intro s; rfl
  | succ k ih =>
      intro s
      rw [Function.iterate_succ_apply, ih (undo s)]
      obtain ⟨g, hist, rs⟩ := s
      cases hist with
      | nil =>
          rw [undo_empty ⟨g, [], rs⟩ rfl]
          simp only [List.length_nil]
          omega
      | cons p rest =>
          have hu : undo ⟨g, p :: rest, rs⟩ = ⟨p, rest, g :: rs⟩ := rfl
          rw [hu]
          simp only [List.length_cons]
          omega

/-- Saves and mutations keep the redo stack empty. -/
lemma runOps_redoStack {β : Type} :
    ∀ (ops : List (HistOp β)) (s : ElemHist β), s.redoStack = [] →
      (runOps ops s).redoStack = [] := by
  intro ops
  induction ops with
  | nil => intro s h; exact h
  | cons op ops ih =>
      intro s h
      cases op with
      | save => exact ih (saveSnapshot s) rfl
      | mutate g => exact ih (setGeom g s) h

/-- C7: Undo/redo symmetry. For every starting state with an empty redo
stack and every interleaved sequence of `saveSnapshot` calls and geometry
mutations, performing `N` undos followed by `N` redos restores the state
(geometry and both stacks) exactly as it was before the first undo; and
mechanically, `undo` on a non-empty undo stack pops it, pushes the
pre-restore geometry onto the redo stack and overwrites the geometry,
while `redo` does the converse. -/
theorem undo_redo_symmetry {β : Type} (s : ElemHist β) (ops : List (HistOp β)) (N : ℕ)
    (hredo : s.redoStack = []) :
    redo^[N] (undo^[N] (runOps ops s)) = runOps ops s ∧
    (∀ (st : ElemHist β) (p : HistSnap β) (rest : List (HistSnap β)),
      st.history = p :: rest → undo st = ⟨p, rest, st.geom :: st.redoStack⟩) ∧
    (∀ (st : ElemHist β) (n : HistSnap β) (rest : List (HistSnap β)),
      st.redoStack = n :: rest → redo st = ⟨n, st.geom :: st.history, rest⟩) := by
  refine ⟨?_, ?_, ?_⟩
  · by_cases hN : N ≤ (runOps ops s).history.length
    · exact redo_undo_iter N _ hN
    · push_neg at hN
      have hredo2 : (runOps ops s).redoStack = [] := runOps_redoStack ops s hredo
      have hNL : (runOps ops s).history.length ≤ N := hN.le
      have hempty : (undo^[(runOps ops s).history.length] (runOps ops s)).history = [] := by
        have hl := undo_iter_length (runOps ops s).history.length (runOps ops s)
        rwa [Nat.sub_self, List.length_eq_zero] at hl
      have hsplit : undo^[N] (runOps ops s) =
          undo^[N - (runOps ops s).history.length]
            (undo^[(runOps ops s).history.length] (runOps ops s)) := by
        rw [← Function.iterate_add_apply, Nat.sub_add_cancel hNL]
      have hfix : undo^[N - (runOps ops s).history.length]
          (undo^[(runOps ops s).history.length] (runOps ops s)) =
          undo^[(runOps ops s).history.length] (runOps ops s) :=
        Function.iterate_fixed (undo_empty _ hempty) _
      calc redo^[N] (undo^[N] (runOps ops s))
          = redo^[N - (runOps ops s).history.length]
              (redo^[(runOps ops s).history.length]
                (undo^[(runOps ops s).history.length] (runOps ops s))) := by
            rw [hsplit, hfix, ← Function.iterate_add_apply, Nat.sub_add_cancel hNL]
        _ = redo^[N - (runOps ops s).history.length] (runOps ops s) := by
            rw [redo_undo_iter _ _ (le_refl _)]
        _ = runOps ops s := Function.iterate_fixed (redo_empty _ hredo2) _
  · intro st p rest h
    obtain ⟨g, hist, rs⟩ := st
    simp only at h
    subst h
    rfl
  · intro st n rest h
    obtain ⟨g, hist, rs⟩ := st
    simp only at h
    subst h
    rfl

/-- Witness for C7: one save and one mutation from a fresh state, then one
undo and one redo. -/
theorem undo_redo_symmetry_witness :
    redo^[1] (undo^[1] (runOps
        [HistOp.save, HistOp.mutate ⟨1, 1, 1, 1, 1, 1, 1, 1, 1, 1⟩]
        (⟨⟨0, 0, 0, 0, 0, 0, 0, 0, 0, 0⟩, [], []⟩ : ElemHist ℚ))) =
      runOps [HistOp.save, HistOp.mutate ⟨1, 1, 1, 1, 1, 1, 1, 1, 1, 1⟩]
        (⟨⟨0, 0, 0, 0, 0, 0, 0, 0, 0, 0⟩, [], []⟩ : ElemHist ℚ) :=
  (undo_redo_symmetry (⟨⟨0, 0, 0, 0, 0, 0, 0, 0, 0, 0⟩, [], []⟩ : ElemHist ℚ)
    [HistOp.save, HistOp.mutate ⟨1, 1, 1, 1, 1, 1, 1, 1, 1, 1⟩] 1 rfl).1

/-- One field of the comma-separated position string: a rounded integer,
or the auto-height sentinel (`NaN` in directive style, `_` in attribute
style). -/
inductive PosField where
  | num (n : ℤ)
  | nanSentinel
  deriving DecidableEq

/-- The conditional tail of the position serialization watch in
`useDragElements.ts`: rotate is emitted when `Math.round(r) !== 0` or any
later field is non-default, zIndex when `z !== 100` or any crop is
non-zero, and the four crop fields when any crop is non-zero. The
non-default tests are on the raw (unrounded) values, as in the source. -/
def encodeTail [FloorRing α] (r z cT cR cB cL : α) : List PosField :=
  (if round r ≠ 0 ∨ z ≠ 100 ∨ (cT ≠ 0 ∨ cR ≠ 0 ∨ cB ≠ 0 ∨ cL ≠ 0) then
    [PosField.num (round r)] else []) ++
  (if z ≠ 100 ∨ (cT ≠ 0 ∨ cR ≠ 0 ∨ cB ≠ 0 ∨ cL ≠ 0) then
    [PosField.num (round z)] else []) ++
  (if cT ≠ 0 ∨ cR ≠ 0 ∨ cB ≠ 0 ∨ cL ≠ 0 then
    [PosField.num (round cT), PosField.num (round cR), PosField.num (round cB),
      PosField.num (round cL)] else [])

/-- The position serialization watch of `useDragElements.ts`:
`[x0 - w/2, y0 - h/2, w].map(Math.round)` then the height (or the
auto-height sentinel), then the conditional tail. `Math.round` is
`⌊x + 1/2⌋`, which is Mathlib's `round`. -/
def encodePos [FloorRing α] (autoHeight : Bool) (x0 y0 w h r z cT cR cB cL : α) :
    List PosField :=
  [PosField.num (round (x0 - w / 2)), PosField.num (round (y0 - h / 2)),
    PosField.num (round w)] ++
  [if autoHeight then PosField.nanSentinel else PosField.num (round h)] ++
  encodeTail r z cT cR cB cL

/-- Field access `pos[k] ?? d` of the decoder: the numeric value when the
`k`-th field is a finite number, the default otherwise (the sentinel only
ever occurs at index 3, where auto-height mode makes the value unused). -/
def getFieldD (l : List PosField) (k : ℕ) (d : α) : α :=
  match l[k]? with
  | some (PosField.num n) => (n : α)
  | _ => d

/-- Geometry state produced by decoding a position string in
`useDragElement` (`useDragElements.ts`). -/
structure DecGeom (α : Type) where
  x0 : α
  y0 : α
  width : α
  height : α
  rotate : α
  zIndex : α
  cropTop : α
  cropRight : α
  cropBottom : α
  cropLeft : α
  autoHeight : Bool
  deriving DecidableEq

/-- The decoding performed by `useDragElement` on an existing position
string (`posRaw != null`): `width = pos[2]`, `x0 = pos[0] + pos[2]/2`,
`rotate = pos[4] ?? 0` (0 for arrows), `zIndex = pos[5] ?? 100`, crops
`pos[6..9] ?? 0`; auto-height mode holds when `pos[3]` is missing or
non-finite, in which case the height is the measured `actualHeight` and
`y0 = pos[1] + height/2`; otherwise `height = pos[3]` and
`y0 = pos[1] + pos[3]/2`. -/
def decodePos (l : List PosField) (isArrow : Bool) (actualHeight : α) : DecGeom α :=
  let autoH := !isArrow &&
    (match l[3]? with
      | some (PosField.num _) => false
      | _ => true)
  let width := getFieldD l 2 0
  let x0 := getFieldD l 0 0 + width / 2
  let rotate := if isArrow then 0 else getFieldD l 4 0
  let zIndex := getFieldD l 5 100
  let cT := getFieldD l 6 0
  let cR := getFieldD l 7 0
  let cB := getFieldD l 8 0
  let cL := getFieldD l 9 0
  let height := if autoH then actualHeight else getFieldD l 3 0
  let y0 := if autoH then getFieldD l 1 0 + height / 2
    else getFieldD l 1 0 + getFieldD l 3 0 / 2
  ⟨x0, y0, width, height, rotate, zIndex, cT, cR, cB, cL, autoH⟩

/-- C9: Encoding round-trip and field layout. Decoding the encoded
position of the representative geometries reproduces them exactly
(their fields are integral, so per-field rounding is the identity):
`(left, top, width, height) = (100, 100, 100, 100)`, the same with
rotation 45 and crops `(10, 0, 20, 0)`, and an auto-height geometry whose
height field is the sentinel; and the encoder emits
`left, top, width, height` followed by rotate, zIndex and the four crop
fields, omitting a trailing group only when it and all later fields equal
their defaults (`round rotate = 0`, `zIndex = 100`, crops 0). -/
theorem encoding_round_trip {α : Type} [LinearOrderedField α] [FloorRing α]
    (r z cT cR cB cL : α) :
    (encodePos false (150 : ℚ) 150 100 100 0 100 0 0 0 0 =
        [PosField.num 100, PosField.num 100, PosField.num 100, PosField.num 100] ∧
      decodePos [PosField.num 100, PosField.num 100, PosField.num 100, PosField.num 100]
          false (0 : ℚ) =
        ⟨150, 150, 100, 100, 0, 100, 0, 0, 0, 0, false⟩) ∧
    (encodePos false (150 : ℚ) 150 100 100 45 100 10 0 20 0 =
        [PosField.num 100, PosField.num 100, PosField.num 100, PosField.num 100,
          PosField.num 45, PosField.num 100, PosField.num 10, PosField.num 0,
          PosField.num 20, PosField.num 0] ∧
      decodePos [PosField.num 100, PosField.num 100, PosField.num 100, PosField.num 100,
          PosField.num 45, PosField.num 100, PosField.num 10, PosField.num 0,
          PosField.num 20, PosField.num 0] false (0 : ℚ) =
        ⟨150, 150, 100, 100, 45, 100, 10, 0, 20, 0, false⟩) ∧
    (encodePos true (150 : ℚ) 150 100 100 0 100 0 0 0 0 =
        [PosField.num 100, PosField.num 100, PosField.num 100, PosField.nanSentinel] ∧
      decodePos [PosField.num 100, PosField.num 100, PosField.num 100, PosField.nanSentinel]
          false (100 : ℚ) =
        ⟨150, 150, 100, 100, 0, 100, 0, 0, 0, 0, true⟩) ∧
    ((round r = 0 ∧ z = 100 ∧ cT = 0 ∧ cR = 0 ∧ cB = 0 ∧ cL = 0 →
        encodeTail r z cT cR cB cL = []) ∧
      (round r ≠ 0 ∧ z = 100 ∧ cT = 0 ∧ cR = 0 ∧ cB = 0 ∧ cL = 0 →
        encodeTail r z cT cR cB cL = [PosField.num (round r)]) ∧
      (z ≠ 100 ∧ cT = 0 ∧ cR = 0 ∧ cB = 0 ∧ cL = 0 →
        encodeTail r z cT cR cB cL = [PosField.num (round r), PosField.num (round z)]) ∧
      ((cT ≠ 0 ∨ cR ≠ 0 ∨ cB ≠ 0 ∨ cL ≠ 0) →
        encodeTail r z cT cR cB cL =
          [PosField.num (round r), PosField.num (round z), PosField.num (round cT),
            PosField.num (round cR), PosField.num (round cB), PosField.num (round cL)])) := by
  refine ⟨⟨?_, ?_⟩, ⟨?_, ?_⟩, ⟨?_, ?_⟩, ?_, ?_, ?_, ?_⟩
  · norm_num [encodePos, encodeTail, round_eq]
  · norm_num [decodePos, getFieldD]
  · norm_num [encodePos, encodeTail, round_eq]
  · norm_num [decodePos, getFieldD]
  · norm_num [encodePos, encodeTail, round_eq]
  · norm_num [decodePos, getFieldD]
  · rintro ⟨h1, h2, h3, h4, h5, h6⟩
    subst h2 h3 h4 h5 h6
    simp [encodeTail, h1]
  · rintro ⟨h1, h2, h3, h4, h5, h6⟩
    subst h2 h3 h4 h5 h6
    simp [encodeTail, h1]
  · rintro ⟨h1, h2, h3, h4, h5⟩
    subst h2 h3 h4 h5
    simp [encodeTail, h1]
  · rintro (h | h | h | h) <;> simp [encodeTail, h]

/-- Witness for C9: the tail layout at rotation 45 with defaults
elsewhere. -/
theorem encoding_round_trip_witness :
    encodeTail (45 : ℚ) 100 0 0 0 0 = [PosField.num (round (45 : ℚ))] :=
  (encoding_round_trip (45 : ℚ) 100 0 0 0 0).2.2.2.2.1
    ⟨by norm_num [round_eq], rfl, rfl, rfl, rfl, rfl⟩

/-- The selection set of `useMultiSelect.ts`, modelled as a finite set of
element identifiers (the source holds a JS `Set` of `DragElementState`
references). -/
abbrev Selection := Finset ℕ

/-- `selectElement`: `selectedDragElements.value.clear()` followed by
`add(state)` — the result is always the singleton of the given element. -/
def selectElement (sel : Selection) (e : ℕ) : Selection :=
  insert e (∅ : Selection)

/-- `addToSelection`: add the element to the current selection. -/
def addToSelection (sel : Selection) (e : ℕ) : Selection :=
  insert e sel

/-- `removeFromSelection`: delete the element from the selection. -/
def removeFromSelection (sel : Selection) (e : ℕ) : Selection :=
  sel.erase e

/-- `toggleSelection`: delete the element when present, add it
otherwise. -/
def toggleSelection (sel : Selection) (e : ℕ) : Selection :=
  if e ∈ sel then sel.erase e else insert e sel

/-- `clearSelection`: empty the selection. -/
def clearSelection (sel : Selection) : Selection :=
  (∅ : Selection)

/-- C10: `selectElement` always replaces the whole selection — after any
call the selection is exactly the singleton `{e}` (cardinality one),
regardless of the previous selection; and growing the selection is only
possible through `addToSelection`/`toggleSelection`: `removeFromSelection`
shrinks to a subset, `clearSelection` empties, while `addToSelection`
inserts into the existing set and `toggleSelection` inserts or erases by
membership. -/
theorem select_element_replaces :
    (∀ (sel : Selection) (e x : ℕ), x ∈ selectElement sel e ↔ x = e) ∧
    (∀ (sel : Selection) (e : ℕ),
      selectElement sel e = {e} ∧ (selectElement sel e).card = 1) ∧
    (∀ (sel : Selection) (e : ℕ), removeFromSelection sel e ⊆ sel) ∧
    (∀ sel : Selection, clearSelection sel = ∅) ∧
    (∀ (sel : Selection) (e : ℕ), addToSelection sel e = insert e sel) ∧
    (∀ (sel : Selection) (e : ℕ),
      toggleSelection sel e = if e ∈ sel then sel.erase e else insert e sel) := by
  refine ⟨?_, ?_, ?_, fun _ => rfl, fun _ _ => rfl, fun _ _ => rfl⟩
  · intro sel e x
    simp [selectElement]
  · intro sel e
    refine ⟨rfl, ?_⟩
    simp [selectElement]
  · intro sel e
    exact Finset.erase_subset _ _

end SlidevDrag
